import Mathlib

/-!
Shallow embedding of `scripts/autopkg_tools.py`: the concurrent
recipe-execution and publication pipeline.

The Python program runs `process_recipe` for every recipe concurrently via
`asyncio.gather`.  Each task:
  1. computes a branch name and worktree path from the recipe name and a
     `%Y%m%d%H%M%S` UTC timestamp taken once at task start (lines 47-49);
  2. enters the `worktree` context manager (lines 20-29): `create_head(branch)`
     then `git worktree add`, with a `finally` that runs
     `git worktree remove --force` and `git worktree prune`;
  3. awaits the recipe executor (line 61); an executor exception is caught and
     the task returns (lines 64-66);
  4. if the executor produced no imported items, returns (lines 68-70);
  5. otherwise stages each item's files, commits once, pushes the branch and
     opens a pull request (lines 72-100).  None of these calls is awaited:
     under asyncio's single-threaded cooperative scheduling the whole
     post-await continuation of a task runs as one atomic block.

We model each task as a list of atomic action blocks separated by await
points, an environment of fault-injection flags for the external calls
(git, the recipe executor, GitHub), and an outcome describing how the
coroutine terminated.  `asyncio.gather(...)` with the default
`return_exceptions=False` propagates an uncaught task exception to `main`,
and `asyncio.run(main())` then terminates the process with a non-zero exit
status; tasks whose exceptions are caught inside `process_recipe` simply
return `None` and `main` exits 0.
-/

/-- An imported item as found in `results["munki_imported_items"]`
(a Python dict; `item.get(key)` yields `None` for a missing key). -/
structure ImportedItem where
  name : String
  version : String
  pkginfo_path : Option String
  pkg_repo_path : Option String
  icon_repo_path : Option String
deriving DecidableEq, Repr

/-- Result of `await Recipe(recipe_path, ...).run()` (line 61): either the
executor raises, or it returns a result dict whose relevant field is the
list of imported items. -/
inductive ExecResult where
  | raises (e : String)
  | returns (items : List ImportedItem)
deriving DecidableEq, Repr

/-- Fault-injection environment for one task: which of the external calls
made by `process_recipe` raises when first attempted.  `execResult` is the
behaviour of the recipe executor. -/
structure Env where
  execResult : ExecResult
  createHeadFails : Bool
  worktreeAddFails : Bool
  stageFails : Bool
  commitFails : Bool
  pushFails : Bool
  prFails : Bool
deriving DecidableEq, Repr

/-- The observable actions a task performs against the shared repository,
the remote, and the pull-request service. -/
inductive Act where
  | createHead (branch : String)
  | worktreeAdd (path : String) (branch : String)
  | execute
  | stageAdd (files : List String)
  | commitIndex (msg : String)
  | push (branch : String)
  | createPull (title : String) (body : String) (headBranch : String) (baseBranch : String)
  | worktreeRemove (path : String)
  | worktreePrune
deriving DecidableEq, Repr

/-- How the `process_recipe` coroutine terminated. -/
inductive TaskOutcome where
  /-- an exception from `create_head` or `git worktree add` propagated out -/
  | wtError
  /-- the recipe executor raised; caught at lines 64-66, task returned -/
  | execFailed
  /-- the executor returned zero imported items; task returned at lines 68-70 -/
  | noChanges
  /-- staging, commit, push and pull-request creation all completed -/
  | published
  /-- an exception from staging, commit, push or PR creation propagated out -/
  | pubError
deriving DecidableEq, Repr

/-- Line 48: `recipe_name.replace(' ', '-')` (single-character pattern, so it
replaces every space by a dash). -/
def normName (recipeName : String) : String :=
  String.mk (recipeName.data.map (fun c => if c = ' ' then '-' else c))

/-- Line 48: the branch name derived from the recipe name and the task's
start timestamp. -/
def branchName (recipeName ts : String) : String :=
  "autopkg/" ++ normName recipeName ++ "-" ++ ts

/-- Line 49: the worktree path (relative to the git root's parent) derived
from the recipe name and the same timestamp. -/
def worktreePath (recipeName ts : String) : String :=
  "worktree-" ++ recipeName ++ "-" ++ ts

/-- Python `f"...{x}..."` interpolation of an `item.get(...)` value:
`None` renders as the string `None`. -/
def optStr : Option String → String
  | none => "None"
  | some s => s

/-- Python truthiness of an `item.get(...)` value: `None` and the empty
string are falsy (lines 76 and 78). -/
def truthy : Option String → Bool
  | none => false
  | some s => !(s == "")

/-- Lines 75-79: the files staged for one imported item.  The pkginfo path
is listed unconditionally; the package and icon paths only when present
and non-empty (Python truthiness). -/
def itemFiles (munkiRepoPath : String) (item : ImportedItem) : List String :=
  [munkiRepoPath ++ "/pkgsinfo/" ++ optStr item.pkginfo_path]
  ++ (if truthy item.pkg_repo_path then [munkiRepoPath ++ "/pkgs/" ++ optStr item.pkg_repo_path] else [])
  ++ (if truthy item.icon_repo_path then [munkiRepoPath ++ "/icons/" ++ optStr item.icon_repo_path] else [])

/-- Lines 72-100: the publication steps of one task, run only when the
executor returned a non-empty item list.  Returns the actions that were
performed before any injected failure, and whether all steps completed.
No step is wrapped in a try/except, so on the first failure the remaining
steps do not run. -/
def publishSteps (env : Env) (munkiRepoPath branch name version : String)
    (items : List ImportedItem) : List Act × Bool :=
  if env.stageFails then ([], false)
  else
    let staged := items.map (fun it => Act.stageAdd (itemFiles munkiRepoPath it))
    if env.commitFails then (staged, false)
    else
      let c := staged ++ [Act.commitIndex ("AutoPkg " ++ name ++ " " ++ version)]
      if env.pushFails then (c, false)
      else
        let p := c ++ [Act.push branch]
        if env.prFails then (p, false)
        else
          (p ++ [Act.createPull ("AutoPkg: " ++ name ++ " " ++ version)
                   ("Automated update for `" ++ name ++ "` version `" ++ version ++ "`.")
                   branch "main"], true)

/-- Lines 23-24 of the `worktree` context manager: branch creation then
worktree materialisation. -/
def worktree_enter (path branch : String) : List Act :=
  [Act.createHead branch, Act.worktreeAdd path branch]

/-- Lines 27-29, the `finally` clause of the `worktree` context manager:
`git worktree remove --force` then `git worktree prune`.  Note that
`git worktree prune` only discards stale worktree bookkeeping; neither
command deletes the branch reference created by `create_head`. -/
def worktree_release (path : String) : List Act :=
  [Act.worktreeRemove path, Act.worktreePrune]

/-- The whole of `process_recipe` (lines 32-100) for one task, as a list of
atomic blocks (split at the single `await` of line 61) together with the
coroutine's outcome.

The context-manager body before the `yield` (lines 23-24) is not covered by
the `try`/`finally`, so a failure there performs no cleanup.  Everything
after the executor `await` — the exception handler, the empty-items check,
staging, commit, push, PR creation and the `finally` cleanup — contains no
`await` and therefore forms a single atomic block. -/
def taskBlocks (recipeName ts munkiSubdir : String) (env : Env) :
    List (List Act) × TaskOutcome :=
  let branch := branchName recipeName ts
  let path := worktreePath recipeName ts
  if env.createHeadFails then
    ([[]], .wtError)
  else if env.worktreeAddFails then
    ([[Act.createHead branch]], .wtError)
  else
    let enter := worktree_enter path branch
    let cleanup := worktree_release path
    match env.execResult with
    | .raises _ => ([enter, [Act.execute], cleanup], .execFailed)
    | .returns [] => ([enter, [Act.execute], cleanup], .noChanges)
    | .returns (it0 :: rest) =>
      let munkiRepoPath := path ++ "/" ++ munkiSubdir
      let pub := publishSteps env munkiRepoPath branch it0.name it0.version (it0 :: rest)
      ([enter, [Act.execute], pub.1 ++ cleanup],
       if pub.2 then .published else .pubError)

/-- The flat action trace and outcome of one `process_recipe` task. -/
def process_recipe (recipeName ts munkiSubdir : String) (env : Env) :
    List Act × TaskOutcome :=
  let r := taskBlocks recipeName ts munkiSubdir env
  (r.1.flatten, r.2)

/-- The per-task inputs of one batch entry: the recipe name (stem of the
resolved recipe path), the task's start timestamp, and the behaviour of the
external calls it makes. -/
structure TaskParams where
  recipeName : String
  ts : String
  env : Env
deriving DecidableEq, Repr

/-- The outcome of one batch entry's coroutine. -/
def taskOutcome (munkiSubdir : String) (p : TaskParams) : TaskOutcome :=
  (process_recipe p.recipeName p.ts munkiSubdir p.env).2

/-- Outcomes of all coroutines launched by `asyncio.gather` in `main`
(lines 137-150). -/
def runBatchOutcomes (munkiSubdir : String) (batch : List TaskParams) : List TaskOutcome :=
  batch.map (taskOutcome munkiSubdir)

/-- Outcomes that leave `process_recipe` as an uncaught exception (only the
executor's exception is caught inside the coroutine). -/
def isUncaught : TaskOutcome → Bool
  | .wtError => true
  | .pubError => true
  | _ => false

/-- Exit status of the program: `asyncio.gather` (default
`return_exceptions=False`) propagates any uncaught task exception to
`main`, and `asyncio.run(main())` then exits non-zero; otherwise `main`
returns and the process exits 0.  `main` prints per-recipe log lines but
aggregates no report. -/
def mainExitCode (munkiSubdir : String) (batch : List TaskParams) : Nat :=
  if (runBatchOutcomes munkiSubdir batch).any isUncaught then 1 else 0

/-- State of the base repository affected by the modelled actions: the local
branch references and the materialised worktree paths. -/
structure RepoState where
  branches : List String
  worktrees : List String
deriving DecidableEq, Repr

/-- Effect of one action on the base repository.  `create_head` creates a
branch ref; `worktree add` materialises a directory; `worktree remove`
deletes it; `worktree prune` discards stale worktree bookkeeping and does
not touch branch refs.  Staging, committing, pushing and PR creation act on
the worktree's index and the remote, not on this state. -/
def applyAction (s : RepoState) : Act → RepoState
  | .createHead b => ⟨b :: s.branches, s.worktrees⟩
  | .worktreeAdd p _ => ⟨s.branches, p :: s.worktrees⟩
  | .worktreeRemove p => ⟨s.branches, s.worktrees.erase p⟩
  | _ => s

/-- Run a trace of actions over a repository state. -/
def runTrace (s : RepoState) (t : List Act) : RepoState :=
  t.foldl applyAction s

/-- Actions that publish to the shared repository's index, refs or remote:
staging, committing, pushing, and pull-request creation. -/
def isPubAction : Act → Bool
  | .stageAdd _ => true
  | .commitIndex _ => true
  | .push _ => true
  | .createPull _ _ _ _ => true
  | _ => false

/-- The atomic blocks of one batch entry's coroutine. -/
def mkBlocks (munkiSubdir : String) (p : TaskParams) : List (List Act) :=
  (taskBlocks p.recipeName p.ts munkiSubdir p.env).1

/-- Cooperative scheduler: a schedule is a list of task indices; at each
step the chosen task runs its next atomic block to completion (a task only
yields control at an `await`).  Indices of exhausted or absent tasks are
skipped.  The result is the sequence of executed blocks tagged with the
task that ran them. -/
def runSched : List (List (List Act)) → List Nat → List (Nat × List Act)
  | _, [] => []
  | tasks, i :: rest =>
    match tasks[i]? with
    | some (b :: bs) => (i, b) :: runSched (tasks.set i bs) rest
    | _ => runSched tasks rest

/-- The task tags of the publication actions inside one executed block. -/
def pubChunk (s : Nat × List Act) : List Nat :=
  (s.2.filter isPubAction).map (fun _ => s.1)

/-- The task tags of all publication actions of a scheduled run, in
execution order. -/
def pubTags (segs : List (Nat × List Act)) : List Nat :=
  (segs.map pubChunk).flatten

/-- Number of still-unexecuted blocks of task `t` that contain a
publication action. -/
def pubBudget (t : Nat) (tasks : List (List (List Act))) : Nat :=
  (tasks[t]?.getD []).countP (fun b => b.any isPubAction)

/-- Whether a batch entry's executor succeeds with a non-empty item list
(after a successful worktree acquisition), i.e. the task reaches the
publication steps. -/
def succNonempty (p : TaskParams) : Bool :=
  !p.env.createHeadFails && !p.env.worktreeAddFails &&
    (match p.env.execResult with
     | .returns (_ :: _) => true
     | _ => false)

/-- Whether an outcome shows that the publication steps were entered
(completing either in success or in a propagated publication error). -/
def pubRequested : TaskOutcome → Bool
  | .published => true
  | .pubError => true
  | _ => false

/-- The branch a batch entry's task works on. -/
def taskBranch (p : TaskParams) : String := branchName p.recipeName p.ts

/-- The worktree path a batch entry's task works in. -/
def taskPath (p : TaskParams) : String := worktreePath p.recipeName p.ts

/-- Test for the `git worktree add` acquisition action. -/
def isWorktreeAddAct : Act → Bool
  | .worktreeAdd _ _ => true
  | _ => false

/-- Test for the `git worktree remove --force` release action. -/
def isWorktreeRemoveAct : Act → Bool
  | .worktreeRemove _ => true
  | _ => false

/-- Test for the `git worktree prune` release action. -/
def isPruneAct : Act → Bool
  | .worktreePrune => true
  | _ => false

/-- The message of a commit action, if any. -/
def commitMsgOf : Act → Option String
  | .commitIndex m => some m
  | _ => none

/-- The file list of a staging action, if any. -/
def stagedFilesOf : Act → Option (List String)
  | .stageAdd fs => some fs
  | _ => none

/-- The (title, body, head, base) of a pull-request creation action, if any. -/
def pullReqOf : Act → Option (String × String × String × String)
  | .createPull t b h bb => some (t, b, h, bb)
  | _ => none

/-- Concrete fixture: an imported item with a package file and no icon. -/
def itemFirefox : ImportedItem :=
  ⟨"Firefox", "1.0", some "Firefox-1.0.plist", some "Firefox-1.0.pkg", none⟩

/-- Concrete fixture: all external calls succeed, one imported item. -/
def envAllOk : Env := ⟨.returns [itemFirefox], false, false, false, false, false, false⟩

/-- Concrete fixture: the push to the remote raises. -/
def envPushFails : Env := ⟨.returns [itemFirefox], false, false, false, false, true, false⟩

/-- Concrete fixture: the recipe executor raises. -/
def envExecRaises : Env := ⟨.raises "executor failure", false, false, false, false, false, false⟩

/-- Concrete fixture: the recipe executor returns zero imported items. -/
def envNoItems : Env := ⟨.returns [], false, false, false, false, false, false⟩

/-- Concrete fixture: `git worktree add` raises after `create_head` succeeded. -/
def envWtAddFails : Env := ⟨.returns [itemFirefox], false, true, false, false, false, false⟩

/-- Concrete fixture: a `%Y%m%d%H%M%S` timestamp. -/
def ts0 : String := "20260101120000"

/-- Concrete fixture: the following second. -/
def ts1 : String := "20260101120001"

/-! Helper lemmas for the serialization argument (C1). -/

/-- If every test `P t` holds for at most one element of `l`, then no two
elements of `l` (in position order) satisfy the same test. -/
theorem pairwise_of_countP_le_one {α β : Type} (P : β → α → Bool) (l : List α)
    (h : ∀ t, l.countP (P t) ≤ 1) :
    l.Pairwise (fun a b => ∀ t, P t a = true → P t b = true → False) := by
  induction l with
  | nil => exact List.Pairwise.nil
  | cons a l ih =>
    constructor
    · intro b hb t hpa hpb
      have h1 := h t
      simp only [List.countP_cons, hpa, if_pos] at h1
      have h2 : 0 < l.countP (P t) := List.countP_pos_iff.mpr ⟨b, hb, hpb⟩
      omega
    · apply ih
      intro t
      have h1 := h t
      rw [List.countP_cons] at h1
      omega

/-- In a flattened list of chunks, each of constant value and pairwise
disjoint, no value reappears after a different value intervened: the
pattern `[i, j, i]` with `i ≠ j` is not a sublist. -/
theorem no_aba {i j : Nat} (hij : i ≠ j) (cs : List (List Nat))
    (hconst : ∀ c ∈ cs, ∀ x ∈ c, ∀ y ∈ c, x = y)
    (hdisj : cs.Pairwise (fun c d => ∀ x, x ∈ c → x ∉ d)) :
    ¬ List.Sublist [i, j, i] cs.flatten := by
  induction cs with
  | nil => simp
  | cons c cs ih =>
    intro hsub
    rw [List.flatten_cons] at hsub
    obtain ⟨l₁, l₂, heq, hs₁, hs₂⟩ := List.sublist_append_iff.mp hsub
    obtain ⟨hd, hdisj'⟩ := List.pairwise_cons.mp hdisj
    rcases l₁ with _ | ⟨x, _ | ⟨y, _ | ⟨z, l⟩⟩⟩
    · simp only [List.nil_append] at heq
      subst heq
      exact ih (fun d hdm => hconst d (List.mem_cons_of_mem _ hdm)) hdisj' hs₂
    · simp only [List.cons_append, List.nil_append, List.cons.injEq] at heq
      obtain ⟨rfl, rfl⟩ := heq
      have hic : i ∈ c := hs₁.subset (by simp)
      have hifl : i ∈ cs.flatten := hs₂.subset (by simp)
      obtain ⟨d, hdm, hid⟩ := List.mem_flatten.mp hifl
      exact hd d hdm i hic hid
    · simp only [List.cons_append, List.nil_append, List.cons.injEq] at heq
      obtain ⟨rfl, rfl, _⟩ := heq
      have hic : i ∈ c := hs₁.subset (by simp)
      have hjc : j ∈ c := hs₁.subset (by simp)
      exact hij (hconst c (by simp) i hic j hjc)
    · simp only [List.cons_append, List.cons.injEq] at heq
      obtain ⟨rfl, rfl, _⟩ := heq
      have hic : i ∈ c := hs₁.subset (by simp)
      have hjc : j ∈ c := hs₁.subset (by simp)
      exact hij (hconst c (by simp) i hic j hjc)

/-- Membership in the publication chunk of an executed block. -/
theorem mem_pubChunk {x : Nat} {s : Nat × List Act} :
    x ∈ pubChunk s ↔ x = s.1 ∧ s.2.any isPubAction = true := by
  simp only [pubChunk, List.mem_map, List.mem_filter, List.any_eq_true]
  constructor
  · rintro ⟨a, ⟨ha, hpa⟩, rfl⟩
    exact ⟨rfl, a, ha, hpa⟩
  · rintro ⟨rfl, a, ha, hpa⟩
    exact ⟨a, ⟨ha, hpa⟩, rfl⟩

/-- Each scheduler step consumes one block, so a task emits at most as many
publication-containing blocks as its block list holds. -/
theorem runSched_countP_le (sched : List Nat) (tasks : List (List (List Act))) (t : Nat) :
    (runSched tasks sched).countP (fun s => decide (s.1 = t) && s.2.any isPubAction)
      ≤ pubBudget t tasks := by
  induction sched generalizing tasks with
  | nil => simp [runSched]
  | cons i rest ih =>
    rw [runSched]
    cases htasks : tasks[i]? with
    | none => simpa only [htasks] using ih tasks
    | some bl =>
      cases bl with
      | nil => simpa only [htasks] using ih tasks
      | cons b bs =>
        simp only [htasks]
        have hlen : i < tasks.length := by
          obtain ⟨h, -⟩ := List.getElem?_eq_some_iff.mp htasks
          exact h
        by_cases hit : i = t
        · subst hit
          have hset : (tasks.set i bs)[i]? = some bs := by
            simp [List.getElem?_set_self hlen]
          have hbudget : pubBudget i tasks
              = (b :: bs).countP (fun bk => bk.any isPubAction) := by
            simp [pubBudget, htasks]
          have hbudget' : pubBudget i (tasks.set i bs)
              = bs.countP (fun bk => bk.any isPubAction) := by
            simp [pubBudget, hset]
          have hrec := ih (tasks.set i bs)
          rw [hbudget'] at hrec
          rw [hbudget]
          cases hb : b.any isPubAction <;>
            simp only [List.countP_cons, hb, Bool.and_false, Bool.and_true] <;>
            simp <;> omega
        · have hset : (tasks.set i bs)[t]? = tasks[t]? :=
            List.getElem?_set_ne hit
          have hbudget' : pubBudget t (tasks.set i bs) = pubBudget t tasks := by
            simp [pubBudget, hset]
          have hrec := ih (tasks.set i bs)
          rw [hbudget'] at hrec
          simp only [List.countP_cons]
          have h1 : (decide ((i, b).1 = t) && (i, b).2.any isPubAction) = false := by
            simp [hit]
          simp only [h1]
          simp
          omega

/-- The publication steps never contain worktree or branch actions, and a
task's publication actions all live in its single post-await block: at most
one of a task's atomic blocks contains a publication action. -/
theorem mkBlocks_pub_le_one (munkiSubdir : String) (p : TaskParams) :
    (mkBlocks munkiSubdir p).countP (fun b => b.any isPubAction) ≤ 1 := by
  obtain ⟨n, ts, er, ch, wa, sf, cf, pf, prf⟩ := p
  cases ch <;> cases wa <;>
    simp only [mkBlocks, taskBlocks, worktree_enter, worktree_release] <;>
    try simp [isPubAction]
  all_goals
    rcases er with e | (_ | ⟨it, rest⟩) <;>
      simp [isPubAction, List.countP_cons] <;>
      split <;> omega

/-- C1: Publication is strictly serialized.  For every batch, every
cooperative schedule and every pair of distinct tasks, the trace of
publication actions (staging, committing, pushing, pull-request creation)
is never interleaved: the tag pattern task `i`, then task `j`, then task
`i` again never occurs among the publication actions, because each task's
entire publication runs inside its single post-await atomic block. -/
theorem publication_serialized (munkiSubdir : String) (batch : List TaskParams)
    (sched : List Nat) (i j : Nat) (hij : i ≠ j) :
    ¬ List.Sublist [i, j, i]
        (pubTags (runSched (batch.map (mkBlocks munkiSubdir)) sched)) := by
  have hcount : ∀ t, (runSched (batch.map (mkBlocks munkiSubdir)) sched).countP
      (fun s => decide (s.1 = t) && s.2.any isPubAction) ≤ 1 := by
    intro t
    refine le_trans (runSched_countP_le sched (batch.map (mkBlocks munkiSubdir)) t) ?_
    unfold pubBudget
    rw [List.getElem?_map]
    cases hbt : batch[t]? with
    | none => simp
    | some p => simpa using mkBlocks_pub_le_one munkiSubdir p
  have hpw := pairwise_of_countP_le_one
    (fun t s => decide (s.1 = t) && s.2.any isPubAction)
    (runSched (batch.map (mkBlocks munkiSubdir)) sched) hcount
  show ¬ List.Sublist [i, j, i]
      ((runSched (batch.map (mkBlocks munkiSubdir)) sched).map pubChunk).flatten
  apply no_aba hij
  · intro c hc x hx y hy
    obtain ⟨s, hs, rfl⟩ := List.mem_map.mp hc
    rw [mem_pubChunk] at hx hy
    rw [hx.1, hy.1]
  · refine List.Pairwise.map _ ?_ hpw
    intro a b hab x hxa hxb
    rw [mem_pubChunk] at hxa hxb
    exact hab x (by simp [← hxa.1, hxa.2]) (by simp [← hxb.1, hxb.2])

/-- Witness for C1: a concrete two-task batch under an interleaving
schedule. -/
theorem publication_serialized_witness :
    (0 : Nat) ≠ 1 ∧
    ¬ List.Sublist [0, 1, 0]
        (pubTags (runSched
          ([⟨"Firefox", ts0, envAllOk⟩, ⟨"Chrome", ts0, envAllOk⟩].map
            (mkBlocks "munkirepo")) [0, 1, 0, 1, 0, 1])) :=
  ⟨by decide,
   publication_serialized "munkirepo"
     [⟨"Firefox", ts0, envAllOk⟩, ⟨"Chrome", ts0, envAllOk⟩]
     [0, 1, 0, 1, 0, 1] 0 1 (by decide)⟩

/-- C2 counterexample: a push failure is not caught inside `process_recipe`
(the publication block has no try/except): the task ends in a propagated
exception rather than a recorded failed outcome, and `asyncio.gather`
propagates it so the batch run exits non-zero even though another task in
the batch is healthy. -/
theorem publication_failure_unrecorded :
    (process_recipe "Firefox" ts0 "munkirepo" envPushFails).2 = TaskOutcome.pubError ∧
    isUncaught (process_recipe "Firefox" ts0 "munkirepo" envPushFails).2 = true ∧
    mainExitCode "munkirepo"
      [⟨"Firefox", ts0, envPushFails⟩, ⟨"Chrome", ts0, envAllOk⟩] = 1 := by
  decide

/-- C2 (amended): only a recipe-executor failure is caught and absorbed;
a failure during staging, committing, pushing or pull-request creation
propagates out of the task as an uncaught exception and the batch run
fails with a non-zero exit instead of recording a per-request failed
outcome. -/
theorem publication_failure_propagates (name ts sub : String) (env : Env)
    (it : ImportedItem) (rest : List ImportedItem)
    (h1 : env.createHeadFails = false) (h2 : env.worktreeAddFails = false)
    (h3 : env.execResult = ExecResult.returns (it :: rest))
    (h4 : (env.stageFails || env.commitFails || env.pushFails || env.prFails) = true) :
    (process_recipe name ts sub env).2 = TaskOutcome.pubError ∧
    isUncaught (process_recipe name ts sub env).2 = true ∧
    mainExitCode sub [⟨name, ts, env⟩] = 1 := by
  obtain ⟨er, ch, wa, sf, cf, pf, prf⟩ := env
  simp only at h1 h2 h3 h4
  subst h1 h2 h3
  cases sf <;> cases cf <;> cases pf <;> cases prf <;>
    simp_all [process_recipe, taskBlocks, publishSteps, mainExitCode,
      runBatchOutcomes, taskOutcome, isUncaught]

/-- Witness for C2 (amended) at a concrete push failure. -/
theorem publication_failure_propagates_witness :
    (process_recipe "Firefox" ts0 "munkirepo" envPushFails).2 = TaskOutcome.pubError ∧
    isUncaught (process_recipe "Firefox" ts0 "munkirepo" envPushFails).2 = true ∧
    mainExitCode "munkirepo" [⟨"Firefox", ts0, envPushFails⟩] = 1 :=
  publication_failure_propagates "Firefox" ts0 "munkirepo" envPushFails
    itemFirefox [] rfl rfl rfl rfl

/-- C3: a task enters the publication steps (and terminates them in exactly
one outcome, success or a propagated publication error) precisely when its
worktree acquisition succeeded and the executor returned a non-empty item
list; consequently, in any batch the number of tasks with a publication
outcome equals the number of tasks that succeeded with non-empty items. -/
theorem one_publication_per_success (munkiSubdir : String)
    (batch : List TaskParams) (p : TaskParams) :
    (pubRequested (taskOutcome munkiSubdir p) = true ↔ succNonempty p = true) ∧
    batch.countP (fun q => pubRequested (taskOutcome munkiSubdir q))
      = batch.countP succNonempty := by
  have key : ∀ q : TaskParams,
      pubRequested (taskOutcome munkiSubdir q) = succNonempty q := by
    intro q
    obtain ⟨n, ts, er, ch, wa, sf, cf, pf, prf⟩ := q
    cases ch <;> cases wa <;>
      rcases er with e | (_ | ⟨it, rest⟩) <;>
        simp [taskOutcome, process_recipe, taskBlocks, succNonempty,
          pubRequested, publishSteps] <;>
        cases sf <;> cases cf <;> cases pf <;> cases prf <;>
          simp [pubRequested]
  constructor
  · rw [key p]
  · exact List.countP_congr (fun q _ => by rw [key q])

/-- Splitting a string of shape `pre ++ mid ++ "-" ++ suffix` is unique when
the suffix length is fixed. -/
theorem tag_inj (pre a b t s : String)
    (h : pre ++ a ++ "-" ++ t = pre ++ b ++ "-" ++ s)
    (hlen : t.length = s.length) : a = b ∧ t = s := by
  have hd := congrArg String.data h
  simp only [String.data_append] at hd
  have hlen' : t.data.length = s.data.length := hlen
  obtain ⟨hd1, hd2⟩ := List.append_inj' hd hlen'
  obtain ⟨hd3, -⟩ := List.append_inj' hd1 rfl
  have hd4 := List.append_cancel_left hd3
  exact ⟨String.ext hd4, String.ext hd2⟩

/-- C4 counterexample: two distinct tasks for recipes with the same name
starting within the same clock tick (they differ only in what their
executor will do) receive the same branch name and the same worktree path:
uniqueness is derived from wall clock and recipe name only, not from task
identity. -/
theorem branch_collision :
    (⟨"Firefox", ts0, envAllOk⟩ : TaskParams) ≠ ⟨"Firefox", ts0, envExecRaises⟩ ∧
    taskBranch ⟨"Firefox", ts0, envAllOk⟩ = taskBranch ⟨"Firefox", ts0, envExecRaises⟩ ∧
    taskPath ⟨"Firefox", ts0, envAllOk⟩ = taskPath ⟨"Firefox", ts0, envExecRaises⟩ := by
  decide

/-- C4 (amended): branch names and worktree paths are distinct only as far
as their inputs differ — for timestamps of equal length (the strftime
pattern always yields 14 characters), two tasks get distinct branches
whenever their space-normalized recipe names or their timestamps differ,
and distinct paths whenever their recipe names or timestamps differ; two
tasks with the same recipe name in the same clock tick collide. -/
theorem branch_path_distinct_iff_inputs (n₁ n₂ t₁ t₂ : String)
    (hlen : t₁.length = t₂.length) :
    ((normName n₁ ≠ normName n₂ ∨ t₁ ≠ t₂) → branchName n₁ t₁ ≠ branchName n₂ t₂) ∧
    ((n₁ ≠ n₂ ∨ t₁ ≠ t₂) → worktreePath n₁ t₁ ≠ worktreePath n₂ t₂) := by
  constructor
  · intro hne heq
    obtain ⟨ha, ht⟩ := tag_inj "autopkg/" (normName n₁) (normName n₂) t₁ t₂ heq hlen
    rcases hne with hne | hne
    · exact hne ha
    · exact hne ht
  · intro hne heq
    obtain ⟨ha, ht⟩ := tag_inj "worktree-" n₁ n₂ t₁ t₂ heq hlen
    rcases hne with hne | hne
    · exact hne ha
    · exact hne ht

/-- Witness for C4 (amended): same recipe name, different seconds. -/
theorem branch_path_distinct_iff_inputs_witness :
    ts0.length = ts1.length ∧
    branchName "Firefox" ts0 ≠ branchName "Firefox" ts1 ∧
    worktreePath "Firefox" ts0 ≠ worktreePath "Firefox" ts1 :=
  ⟨by decide,
   (branch_path_distinct_iff_inputs "Firefox" "Firefox" ts0 ts1 (by decide)).1
     (Or.inr (by decide)),
   (branch_path_distinct_iff_inputs "Firefox" "Firefox" ts0 ts1 (by decide)).2
     (Or.inr (by decide))⟩

/-- The publication steps contain no worktree / branch actions, whichever
step fails first. -/
theorem publishSteps_countP_zero (env : Env) (mrp branch name version : String)
    (items : List ImportedItem) (q : Act → Bool)
    (hq1 : ∀ fs, q (Act.stageAdd fs) = false)
    (hq2 : ∀ m, q (Act.commitIndex m) = false)
    (hq3 : ∀ b, q (Act.push b) = false)
    (hq4 : ∀ t b h bb, q (Act.createPull t b h bb) = false) :
    (publishSteps env mrp branch name version items).1.countP q = 0 := by
  have hstaged : (items.map (fun it => Act.stageAdd (itemFiles mrp it))).countP q = 0 := by
    rw [List.countP_eq_zero]
    intro a ha
    obtain ⟨it, -, rfl⟩ := List.mem_map.mp ha
    simp [hq1]
  unfold publishSteps
  split
  · simp
  · split
    · simpa using hstaged
    · split
      · simp [List.countP_append, hstaged, List.countP_cons, hq2]
      · split
        · simp [List.countP_append, hstaged, List.countP_cons, hq2, hq3]
        · simp [List.countP_append, hstaged, List.countP_cons, hq2, hq3, hq4]

/-- C5: whenever the worktree acquisition succeeds, the `finally` clause of
the `worktree` context manager runs on every exit path of the task —
executor exception, zero items, full publication, and even a publication
failure — so the task's trace holds exactly one acquisition, one removal
and one prune: release count equals acquire count. -/
theorem release_on_every_path (name ts sub : String) (env : Env)
    (h1 : env.createHeadFails = false) (h2 : env.worktreeAddFails = false) :
    (process_recipe name ts sub env).1.countP isWorktreeAddAct = 1 ∧
    (process_recipe name ts sub env).1.countP isWorktreeRemoveAct = 1 ∧
    (process_recipe name ts sub env).1.countP isPruneAct = 1 := by
  obtain ⟨er, ch, wa, sf, cf, pf, prf⟩ := env
  simp only at h1 h2
  subst h1 h2
  rcases er with e | (_ | ⟨it, rest⟩)
  · simp [process_recipe, taskBlocks, worktree_enter, worktree_release,
      List.countP_cons, isWorktreeAddAct, isWorktreeRemoveAct, isPruneAct]
  · simp [process_recipe, taskBlocks, worktree_enter, worktree_release,
      List.countP_cons, isWorktreeAddAct, isWorktreeRemoveAct, isPruneAct]
  · have e1 := publishSteps_countP_zero
      ⟨ExecResult.returns (it :: rest), false, false, sf, cf, pf, prf⟩
      (worktreePath name ts ++ "/" ++ sub) (branchName name ts)
      it.name it.version (it :: rest) isWorktreeAddAct
      (fun _ => rfl) (fun _ => rfl) (fun _ => rfl) (fun _ _ _ _ => rfl)
    have e2 := publishSteps_countP_zero
      ⟨ExecResult.returns (it :: rest), false, false, sf, cf, pf, prf⟩
      (worktreePath name ts ++ "/" ++ sub) (branchName name ts)
      it.name it.version (it :: rest) isWorktreeRemoveAct
      (fun _ => rfl) (fun _ => rfl) (fun _ => rfl) (fun _ _ _ _ => rfl)
    have e3 := publishSteps_countP_zero
      ⟨ExecResult.returns (it :: rest), false, false, sf, cf, pf, prf⟩
      (worktreePath name ts ++ "/" ++ sub) (branchName name ts)
      it.name it.version (it :: rest) isPruneAct
      (fun _ => rfl) (fun _ => rfl) (fun _ => rfl) (fun _ _ _ _ => rfl)
    refine ⟨?_, ?_, ?_⟩ <;>
      simp [process_recipe, taskBlocks, worktree_enter, worktree_release,
        List.countP_append, List.countP_cons, e1, e2, e3,
        isWorktreeAddAct, isWorktreeRemoveAct, isPruneAct]

/-- Witness for C5 at a concrete executor failure. -/
theorem release_on_every_path_witness :
    (process_recipe "Firefox" ts0 "munkirepo" envExecRaises).1.countP isWorktreeAddAct = 1 ∧
    (process_recipe "Firefox" ts0 "munkirepo" envExecRaises).1.countP isWorktreeRemoveAct = 1 ∧
    (process_recipe "Firefox" ts0 "munkirepo" envExecRaises).1.countP isPruneAct = 1 :=
  release_on_every_path "Firefox" ts0 "munkirepo" envExecRaises rfl rfl

/-- C6: a task whose executor returns an empty item list is classified as
no-changes and performs no publication action at all: nothing is staged,
no commit is made, no branch is pushed and no pull request is opened. -/
theorem no_items_no_publication (name ts sub : String) (env : Env)
    (h1 : env.createHeadFails = false) (h2 : env.worktreeAddFails = false)
    (h3 : env.execResult = ExecResult.returns []) :
    (process_recipe name ts sub env).2 = TaskOutcome.noChanges ∧
    (process_recipe name ts sub env).1.countP isPubAction = 0 := by
  obtain ⟨er, ch, wa, sf, cf, pf, prf⟩ := env
  simp only at h1 h2 h3
  subst h1 h2 h3
  simp [process_recipe, taskBlocks, worktree_enter, worktree_release,
    List.countP_cons, isPubAction]

/-- Witness for C6 at a concrete empty executor result. -/
theorem no_items_no_publication_witness :
    (process_recipe "Firefox" ts0 "munkirepo" envNoItems).2 = TaskOutcome.noChanges ∧
    (process_recipe "Firefox" ts0 "munkirepo" envNoItems).1.countP isPubAction = 0 :=
  no_items_no_publication "Firefox" ts0 "munkirepo" envNoItems rfl rfl rfl

/-- C7 counterexample: when `git worktree add` fails after `create_head`
succeeded, nothing is caught — the task ends in an uncaught exception
instead of being marked failed, the branch reference created just before
the failure is left behind in the base repository, and the exception
aborts the batch run (non-zero exit) even though another task is healthy. -/
theorem workspace_error_leaks_and_aborts :
    (process_recipe "Firefox" ts0 "munkirepo" envWtAddFails).2 = TaskOutcome.wtError ∧
    isUncaught (process_recipe "Firefox" ts0 "munkirepo" envWtAddFails).2 = true ∧
    (runTrace ⟨[], []⟩ (process_recipe "Firefox" ts0 "munkirepo" envWtAddFails).1).branches
      = [branchName "Firefox" ts0] ∧
    mainExitCode "munkirepo"
      [⟨"Firefox", ts0, envWtAddFails⟩, ⟨"Chrome", ts0, envAllOk⟩] = 1 := by
  decide

/-- C7 (amended): if worktree creation fails after branch creation, the
exception propagates out of `process_recipe` uncaught (the task is not
merely marked failed), the batch run exits non-zero, and the branch
reference created by `create_head` persists while no working copy was
materialised. -/
theorem workspace_error_propagates (name ts sub : String) (env : Env) (s : RepoState)
    (h1 : env.createHeadFails = false) (h2 : env.worktreeAddFails = true) :
    (process_recipe name ts sub env).2 = TaskOutcome.wtError ∧
    runTrace s (process_recipe name ts sub env).1
      = ⟨branchName name ts :: s.branches, s.worktrees⟩ ∧
    mainExitCode sub [⟨name, ts, env⟩] = 1 := by
  obtain ⟨er, ch, wa, sf, cf, pf, prf⟩ := env
  simp only at h1 h2
  subst h1 h2
  simp [process_recipe, taskBlocks, runTrace, applyAction, mainExitCode,
    runBatchOutcomes, taskOutcome, isUncaught]

/-- Witness for C7 (amended) at a concrete worktree-add failure. -/
theorem workspace_error_propagates_witness :
    (process_recipe "Firefox" ts0 "munkirepo" envWtAddFails).2 = TaskOutcome.wtError ∧
    runTrace ⟨[], []⟩ (process_recipe "Firefox" ts0 "munkirepo" envWtAddFails).1
      = ⟨[branchName "Firefox" ts0], []⟩ ∧
    mainExitCode "munkirepo" [⟨"Firefox", ts0, envWtAddFails⟩] = 1 :=
  workspace_error_propagates "Firefox" ts0 "munkirepo" envWtAddFails ⟨[], []⟩ rfl rfl

/-- C8 counterexample: a batch whose only recipe's executor raises is a
batch with a failed task, yet `main` returns normally and the process exits
zero — the executor exception was caught and only logged, and no batch
report is aggregated anywhere. -/
theorem exec_failure_exits_zero :
    (process_recipe "Firefox" ts0 "munkirepo" envExecRaises).2 = TaskOutcome.execFailed ∧
    mainExitCode "munkirepo" [⟨"Firefox", ts0, envExecRaises⟩] = 0 := by
  decide

/-- C8 (amended): the program aggregates no batch report; the process exit
status is zero exactly when no task ended in an uncaught exception
(worktree or publication error) — in particular a task whose recipe
executor raised is absorbed: its coroutine returns normally and a batch
containing only such failures exits zero. -/
theorem exit_status_uncaught_only (sub : String) (batch : List TaskParams) :
    (mainExitCode sub batch = 0 ↔
      ∀ o ∈ runBatchOutcomes sub batch, isUncaught o = false) ∧
    (∀ name ts env, env.createHeadFails = false → env.worktreeAddFails = false →
      (∃ e, env.execResult = ExecResult.raises e) →
      taskOutcome sub ⟨name, ts, env⟩ = TaskOutcome.execFailed ∧
      mainExitCode sub [⟨name, ts, env⟩] = 0) := by
  constructor
  · simp only [mainExitCode]
    split
    · rename_i hany
      simp only [List.any_eq_true] at hany
      obtain ⟨o, ho, huo⟩ := hany
      constructor
      · intro h0
        exact absurd h0 (by decide)
      · intro hall
        rw [hall o ho] at huo
        exact absurd huo (by decide)
    · rename_i hany
      simp only [List.any_eq_true] at hany
      constructor
      · intro _ o ho
        cases huo : isUncaught o
        · rfl
        · exact absurd ⟨o, ho, huo⟩ hany
      · intro _
        rfl
  · intro name ts env h1 h2 ⟨e, h3⟩
    obtain ⟨er, ch, wa, sf, cf, pf, prf⟩ := env
    simp only at h1 h2 h3
    subst h1 h2 h3
    simp [taskOutcome, process_recipe, taskBlocks, mainExitCode,
      runBatchOutcomes, isUncaught]

/-- Witness for C8 (amended) at a concrete singleton batch. -/
theorem exit_status_uncaught_only_witness :
    mainExitCode "munkirepo" [⟨"Firefox", ts0, envExecRaises⟩] = 0 :=
  ((exit_status_uncaught_only "munkirepo"
      [⟨"Firefox", ts0, envExecRaises⟩]).2
    "Firefox" ts0 envExecRaises rfl rfl ⟨"executor failure", rfl⟩).2

/-- The publication steps do not change the base repository's branch and
worktree bookkeeping (they act on the worktree index and the remote). -/
theorem runTrace_publishSteps (env : Env) (mrp branch name version : String)
    (items : List ImportedItem) (s : RepoState) :
    runTrace s (publishSteps env mrp branch name version items).1 = s := by
  have hstaged : ∀ s' : RepoState,
      runTrace s' (items.map (fun it => Act.stageAdd (itemFiles mrp it))) = s' := by
    intro s'
    induction items generalizing s' with
    | nil => rfl
    | cons it rest ih => simpa [runTrace, applyAction] using ih s'
  unfold publishSteps
  split
  · rfl
  · split
    · simpa using hstaged s
    · split
      · simp [runTrace, List.foldl_append, applyAction] at hstaged ⊢
        simp [hstaged]
      · split
        · simp [runTrace, List.foldl_append, applyAction] at hstaged ⊢
          simp [hstaged]
        · simp [runTrace, List.foldl_append, applyAction] at hstaged ⊢
          simp [hstaged]

/-- C9 counterexample: after a fully successful task the worktree directory
is gone, but the branch created by `create_head` is still present in the
base repository — `git worktree remove`/`prune` do not delete branch
references, so the release is not the full destruction the claim states. -/
theorem branch_not_pruned :
    (runTrace ⟨[], []⟩ (process_recipe "Firefox" ts0 "munkirepo" envAllOk).1).worktrees
      = [] ∧
    (runTrace ⟨[], []⟩ (process_recipe "Firefox" ts0 "munkirepo" envAllOk).1).branches
      = [branchName "Firefox" ts0] := by
  decide

/-- C9 (amended): after a task whose worktree acquisition succeeded — on
every exit path, success or failure — the working-copy directory is removed
(the worktree list returns to its initial value), but the branch created at
acquisition persists in the base repository. -/
theorem release_removes_directory_keeps_branch (name ts sub : String) (env : Env)
    (s : RepoState)
    (h1 : env.createHeadFails = false) (h2 : env.worktreeAddFails = false) :
    runTrace s (process_recipe name ts sub env).1
      = ⟨branchName name ts :: s.branches, s.worktrees⟩ := by
  obtain ⟨er, ch, wa, sf, cf, pf, prf⟩ := env
  simp only at h1 h2
  subst h1 h2
  rcases er with e | (_ | ⟨it, rest⟩)
  · simp [process_recipe, taskBlocks, worktree_enter, worktree_release,
      runTrace, applyAction]
  · simp [process_recipe, taskBlocks, worktree_enter, worktree_release,
      runTrace, applyAction]
  · have hpub := runTrace_publishSteps
      ⟨ExecResult.returns (it :: rest), false, false, sf, cf, pf, prf⟩
      (worktreePath name ts ++ "/" ++ sub) (branchName name ts)
      it.name it.version (it :: rest)
      ⟨branchName name ts :: s.branches, worktreePath name ts :: s.worktrees⟩
    simp [process_recipe, taskBlocks, worktree_enter, worktree_release,
      runTrace, List.foldl_append, applyAction] at hpub ⊢
    simp [hpub, applyAction]

/-- Witness for C9 (amended) at a concrete successful task. -/
theorem release_removes_directory_keeps_branch_witness :
    runTrace ⟨["main"], []⟩ (process_recipe "Firefox" ts0 "munkirepo" envAllOk).1
      = ⟨[branchName "Firefox" ts0, "main"], []⟩ :=
  release_removes_directory_keeps_branch "Firefox" ts0 "munkirepo" envAllOk
    ⟨["main"], []⟩ rfl rfl

/-- C10: a task that succeeds with items `it0 :: rest` (all external calls
healthy) performs exactly one commit; every item contributes its staged
file list (pkginfo unconditionally, package and icon only when present and
non-empty) in order; and the commit message, pull-request title and body
are built from the name and version of the first item alone, whatever the
remaining items contain. -/
theorem single_commit_first_item_metadata (name ts sub : String) (env : Env)
    (it0 : ImportedItem) (rest : List ImportedItem)
    (h1 : env.createHeadFails = false) (h2 : env.worktreeAddFails = false)
    (h3 : env.execResult = ExecResult.returns (it0 :: rest))
    (h4 : env.stageFails = false) (h5 : env.commitFails = false)
    (h6 : env.pushFails = false) (h7 : env.prFails = false) :
    (process_recipe name ts sub env).1.filterMap commitMsgOf
      = ["AutoPkg " ++ it0.name ++ " " ++ it0.version] ∧
    (process_recipe name ts sub env).1.filterMap stagedFilesOf
      = (it0 :: rest).map (itemFiles (worktreePath name ts ++ "/" ++ sub)) ∧
    (process_recipe name ts sub env).1.filterMap pullReqOf
      = [("AutoPkg: " ++ it0.name ++ " " ++ it0.version,
          "Automated update for `" ++ it0.name ++ "` version `" ++ it0.version ++ "`.",
          branchName name ts, "main")] ∧
    (process_recipe name ts sub env).2 = TaskOutcome.published := by
  obtain ⟨er, ch, wa, sf, cf, pf, prf⟩ := env
  simp only at h1 h2 h3 h4 h5 h6 h7
  subst h1 h2 h3 h4 h5 h6 h7
  have hfm : ∀ l : List ImportedItem,
      l.filterMap (stagedFilesOf ∘ fun it =>
        Act.stageAdd (itemFiles (worktreePath name ts ++ "/" ++ sub) it))
        = l.map (itemFiles (worktreePath name ts ++ "/" ++ sub)) := by
    intro l
    induction l with
    | nil => rfl
    | cons a l ih => simp [stagedFilesOf, Function.comp, ih]
  refine ⟨?_, ?_, ?_, ?_⟩ <;>
    simp [process_recipe, taskBlocks, publishSteps, worktree_enter,
      worktree_release, List.filterMap_append, List.filterMap_map,
      commitMsgOf, stagedFilesOf, pullReqOf, Function.comp, hfm]

/-- Witness for C10 with two imported items: metadata comes from the first
item only, while both items' files are staged. -/
theorem single_commit_first_item_metadata_witness :
    (process_recipe "Firefox" ts0 "munkirepo"
        ⟨ExecResult.returns [itemFirefox, ⟨"Other", "9.9", some "o.plist", none, none⟩],
         false, false, false, false, false, false⟩).1.filterMap commitMsgOf
      = ["AutoPkg Firefox 1.0"] ∧
    (process_recipe "Firefox" ts0 "munkirepo"
        ⟨ExecResult.returns [itemFirefox, ⟨"Other", "9.9", some "o.plist", none, none⟩],
         false, false, false, false, false, false⟩).1.filterMap stagedFilesOf
      = [itemFirefox, ⟨"Other", "9.9", some "o.plist", none, none⟩].map
          (itemFiles (worktreePath "Firefox" ts0 ++ "/" ++ "munkirepo")) ∧
    (process_recipe "Firefox" ts0 "munkirepo"
        ⟨ExecResult.returns [itemFirefox, ⟨"Other", "9.9", some "o.plist", none, none⟩],
         false, false, false, false, false, false⟩).1.filterMap pullReqOf
      = [("AutoPkg: Firefox 1.0",
          "Automated update for `Firefox` version `1.0`.",
          branchName "Firefox" ts0, "main")] ∧
    (process_recipe "Firefox" ts0 "munkirepo"
        ⟨ExecResult.returns [itemFirefox, ⟨"Other", "9.9", some "o.plist", none, none⟩],
         false, false, false, false, false, false⟩).2 = TaskOutcome.published :=
  single_commit_first_item_metadata "Firefox" ts0 "munkirepo"
    ⟨ExecResult.returns [itemFirefox, ⟨"Other", "9.9", some "o.plist", none, none⟩],
     false, false, false, false, false, false⟩
    itemFirefox [⟨"Other", "9.9", some "o.plist", none, none⟩]
    rfl rfl rfl rfl rfl rfl rfl
